import Mathlib

/-!
Verification of the CHIP-8 virtual machine core (`src/main.rs`).

The VM state and every opcode of `Emulator::run` are shallowly embedded:

* `mem` (Rust `[u8; 4096]`) is a total map `Nat → Nat` of byte values
  together with the fixed size `memSize = 4096`; the Rust index operation,
  which panics when the index is out of bounds, is embedded as the
  `Option`-valued `readMem` / `writeMem`, whose bound is `memSize`.
* `reg` (Rust `[u8; 16]`) is a `List Nat` of byte values; register indices
  are 4-bit instruction fields and hence always in bounds, so plain
  `List.getD` / `List.set` is used for them.
* `screen` (Rust `[u64; 32]` viewed through Msb0 bit views) is a
  `List (List Bool)`: row `p`, bit position `q` of the Msb0 view of row `p` is
  `(screen.getD p []).getD q false`.
* the 16-key keypad: the Rust code stores `minifb` keys and tests
  `key_pressed.contains(&KEY_MAPPINGS[k])`; since `KEY_MAPPINGS` is an
  injective table of 16 physical keys, the pressed / released snapshots are
  embedded as lists of logical key indices, and the table lookup
  `KEY_MAPPINGS[k]`, which panics for `k ≥ 16`, as the `Option`-valued `keyAt`.
* the random byte drawn by opcode Cxnn is an explicit input of the cycle.
* a Rust `Result`-style fatal error (`invalid instruction`, empty-stack pop)
  and an index-out-of-bounds panic both abort `run`; they are the
  constructors of `EmuError`.

The host window, audio stream, and timer/outer frame loop are external
collaborators; the embedding covers the fetch-decode-execute cycle
(`step`, one iteration of the inner `for _cycles in 0..100` loop) and the
batch runner `runCycles`.
-/

/-- Byte `j` of a `u8` viewed most-significant-bit first, as in
`b.view_bits::<Msb0>()[j]` of the Rust code. -/
def bitMsb (b j : Nat) : Bool :=
  Nat.testBit b (7 - j)

/-- The length of the memory array `mem: [u8; 4096]`. -/
def memSize : Nat := 4096

/-- Reading `mem[a]`: Rust array indexing panics when `a` is out of bounds. -/
def readMem (m : Nat → Nat) (a : Nat) : Option Nat :=
  if a < memSize then some (m a) else none

/-- Writing `mem[a] = v`: Rust array indexing panics when `a` is out of
bounds. -/
def writeMem (m : Nat → Nat) (a v : Nat) : Option (Nat → Nat) :=
  if a < memSize then some (fun q => if q = a then v else m q) else none

/-- The lookup `key_list.contains(&KEY_MAPPINGS[k])` of the Rust code, with
physical keys abstracted to logical indices through the injective
`KEY_MAPPINGS` table: indexing the 16-entry table panics for `k ≥ 16`. -/
def keyAt (keys : List Nat) (k : Nat) : Option Bool :=
  if k < 16 then some (keys.contains k) else none

/-- Opcode 8xy1: `reg[x] |= reg[y]; reg[0xF] = 0`. -/
def exec8xy1 (reg : List Nat) (x y : Nat) : List Nat :=
  (reg.set x (reg.getD x 0 ||| reg.getD y 0)).set 15 0

/-- Opcode 8xy2: `reg[x] &= reg[y]; reg[0xF] = 0`. -/
def exec8xy2 (reg : List Nat) (x y : Nat) : List Nat :=
  (reg.set x (reg.getD x 0 &&& reg.getD y 0)).set 15 0

/-- Opcode 8xy3: `reg[x] ^= reg[y]; reg[0xF] = 0`. -/
def exec8xy3 (reg : List Nat) (x y : Nat) : List Nat :=
  (reg.set x (reg.getD x 0 ^^^ reg.getD y 0)).set 15 0

/-- Opcode 8xy4: `(sum, overflow) = reg[x].overflowing_add(reg[y]);
reg[x] = sum; reg[0xF] = overflow.into()`. -/
def exec8xy4 (reg : List Nat) (x y : Nat) : List Nat :=
  let sum := (reg.getD x 0 + reg.getD y 0) % 256
  let flag := if 256 ≤ reg.getD x 0 + reg.getD y 0 then 1 else 0
  (reg.set x sum).set 15 flag

/-- Opcode 8xy5: `(diff, overflow) = reg[x].overflowing_sub(reg[y]);
reg[x] = diff; reg[0xF] = (!overflow).into()`.  Wrapping byte subtraction
`a.wrapping_sub(b)` is `(a + 256 - b) % 256` on byte values. -/
def exec8xy5 (reg : List Nat) (x y : Nat) : List Nat :=
  let diff := (reg.getD x 0 + 256 - reg.getD y 0) % 256
  let flag := if reg.getD x 0 < reg.getD y 0 then 0 else 1
  (reg.set x diff).set 15 flag

/-- Opcode 8xy6: `res = reg[y] >> 1; flag = reg[y] & 1;
reg[x] = res; reg[0xF] = flag`. -/
def exec8xy6 (reg : List Nat) (x y : Nat) : List Nat :=
  (reg.set x (reg.getD y 0 >>> 1)).set 15 (reg.getD y 0 &&& 1)

/-- Opcode 8xy7: `(value, overflow) = reg[y].overflowing_sub(reg[x]);
reg[x] = value; reg[0xF] = (!overflow).into()`. -/
def exec8xy7 (reg : List Nat) (x y : Nat) : List Nat :=
  let v := (reg.getD y 0 + 256 - reg.getD x 0) % 256
  let flag := if reg.getD y 0 < reg.getD x 0 then 0 else 1
  (reg.set x v).set 15 flag

/-- Opcode 8xyE: `res = reg[y] << 1; flag = (reg[y] & (1 << 7)) >> 7;
reg[x] = res; reg[0xF] = flag`.  The `u8` left shift truncates to 8 bits. -/
def exec8xyE (reg : List Nat) (x y : Nat) : List Nat :=
  (reg.set x ((reg.getD y 0 <<< 1) % 256)).set 15 ((reg.getD y 0 &&& 128) >>> 7)

/-- Opcode Fx29: `idx = 0x50 + 5 * reg[(x & 0xF) as usize] as u16` — note the
mask is applied to the operand nibble `x`, not to the register value. -/
def execFx29 (reg : List Nat) (x : Nat) : Nat :=
  0x50 + 5 * reg.getD (x &&& 0xF) 0

/-- Opcode Ex9E: `if key_pressed.contains(&KEY_MAPPINGS[reg[x] as usize])
{ pc += 2 }` — the table is indexed with the full register value. -/
def execEx9E (pressed : List Nat) (reg : List Nat) (x pc : Nat) : Option Nat :=
  match keyAt pressed (reg.getD x 0) with
  | none => none
  | some b => some (if b then pc + 2 else pc)

/-- Opcode ExA1: `if !key_pressed.contains(&KEY_MAPPINGS[reg[x] as usize])
{ pc += 2 }`. -/
def execExA1 (pressed : List Nat) (reg : List Nat) (x pc : Nat) : Option Nat :=
  match keyAt pressed (reg.getD x 0) with
  | none => none
  | some b => some (if b then pc else pc + 2)

/-- The loop body of Fx55, `for i in 0..=x { mem[idx] = reg[i]; idx += 1 }`,
over the remaining list of loop indices. -/
def dumpLoop (reg : List Nat) (is : List Nat) (mem : Nat → Nat) (idx : Nat) :
    Option ((Nat → Nat) × Nat) :=
  match is with
  | [] => some (mem, idx)
  | i :: rest =>
    match writeMem mem idx (reg.getD i 0) with
    | none => none
    | some mem1 => dumpLoop reg rest mem1 (idx + 1)

/-- Opcode Fx55: store registers `0..=x` to memory starting at `idx`,
incrementing `idx` after each store. -/
def execFx55 (reg : List Nat) (x : Nat) (mem : Nat → Nat) (idx : Nat) :
    Option ((Nat → Nat) × Nat) :=
  dumpLoop reg (List.range (x + 1)) mem idx

/-- The loop body of Fx65, `for i in 0..=x { reg[i] = mem[idx]; idx += 1 }`,
over the remaining list of loop indices. -/
def loadLoop (mem : Nat → Nat) (is : List Nat) (reg : List Nat) (idx : Nat) :
    Option (List Nat × Nat) :=
  match is with
  | [] => some (reg, idx)
  | i :: rest =>
    match readMem mem idx with
    | none => none
    | some v => loadLoop mem rest (reg.set i v) (idx + 1)

/-- Opcode Fx65: load registers `0..=x` from memory starting at `idx`,
incrementing `idx` after each load. -/
def execFx65 (mem : Nat → Nat) (x : Nat) (reg : List Nat) (idx : Nat) :
    Option (List Nat × Nat) :=
  loadLoop mem (List.range (x + 1)) reg idx

/-- The inner column loop of the draw opcode, `for j in 0..8`, over the
remaining list of column offsets: breaks at the first `j` with
`x_pos + j >= 64`; a set sprite bit XORs the pixel and raises the collision
flag when the pixel was already set. -/
def drawCols (b xpos : Nat) (js : List Nat) (row : List Bool) (flag : Nat) :
    List Bool × Nat :=
  match js with
  | [] => (row, flag)
  | j :: rest =>
    if 64 ≤ xpos + j then (row, flag)
    else if bitMsb b j then
      if row.getD (xpos + j) false then
        drawCols b xpos rest (row.set (xpos + j) false) 1
      else
        drawCols b xpos rest (row.set (xpos + j) true) flag
    else
      drawCols b xpos rest row flag

/-- The outer row loop of the draw opcode, `for i in 0..n`, over the remaining
list of row offsets: breaks at the first `i` with `y_pos + i >= 32`; reads the
sprite byte `mem[idx + i]` (a panicking index), then runs the column loop on
screen row `y_pos + i`. -/
def drawRows (mem : Nat → Nat) (idx xpos ypos : Nat) (is : List Nat)
    (screen : List (List Bool)) (flag : Nat) :
    Option (List (List Bool) × Nat) :=
  match is with
  | [] => some (screen, flag)
  | i :: rest =>
    if 32 ≤ ypos + i then some (screen, flag)
    else
      match readMem mem (idx + i) with
      | none => none
      | some b =>
        let res := drawCols b xpos (List.range 8) (screen.getD (ypos + i) []) flag
        drawRows mem idx xpos ypos rest (screen.set (ypos + i) res.1) res.2

/-- Opcode Dxyn: origin `(reg[x] % 64, reg[y] % 32)`, `reg[0xF] = 0`, then the
row/column scan; returns the updated screen and register file, or `none` when
a sprite byte read panics. -/
def execDxyn (mem : Nat → Nat) (reg : List Nat) (idx x y n : Nat) (screen : List (List Bool)) :
    Option (List (List Bool) × List Nat) :=
  let xpos := reg.getD x 0 % 64
  let ypos := reg.getD y 0 % 32
  let reg1 := reg.set 15 0
  match drawRows mem idx xpos ypos (List.range n) screen (reg1.getD 15 0) with
  | none => none
  | some (screen1, flag) => some (screen1, reg1.set 15 flag)

/-- Fatal outcomes of a cycle: the two `Err(..)` returns of the Rust code and
an index-out-of-bounds panic. -/
inductive EmuError where
  | outOfBounds
  | emptyStack
  | invalidInstruction
  deriving DecidableEq

/-- Per-cycle external input: pressed and released key snapshots (as logical
key indices, see the header comment) and the random byte of opcode Cxnn. -/
structure CycleInput where
  pressed : List Nat
  released : List Nat
  rand : Nat
  deriving DecidableEq

/-- The VM state owned by `Emulator`: memory, registers, call stack, program
counter, index register, the two timers, and the 64×32 screen.  The window,
framebuffer, audio stream and RNG fields are external collaborators. -/
structure Emulator where
  mem : Nat → Nat
  reg : List Nat
  stack : List Nat
  pc : Nat
  idx : Nat
  delay : Nat
  sound : Nat
  screen : List (List Bool)

/-- One fetch-decode-execute cycle (one iteration of the inner
`for _cycles in 0..100` loop of `Emulator::run`).  The returned `Bool` records
whether the opcode ended the batch early (`break` after clear or draw).  The
instruction fetch reads `mem[pc..pc+2]`, which panics when `pc + 2` exceeds
the memory size.  The ordered Rust `match (op, value, n)` dispatch (first
matching arm wins) is embedded as the equivalent ordered if-then-else
chain. -/
def step (inp : CycleInput) (e : Emulator) : Except EmuError (Emulator × Bool) :=
  if memSize < e.pc + 2 then .error .outOfBounds
  else
    let b0 := e.mem e.pc
    let b1 := e.mem (e.pc + 1)
    let op := b0 / 16
    let x := b0 % 16
    let y := b1 / 16
    let n := b1 % 16
    let value := b1
    let address := (b0 % 16) * 256 + b1
    let e := { e with pc := e.pc + 2 }
    if op = 0 ∧ value = 0xE0 then
      .ok ({ e with screen := List.replicate 32 (List.replicate 64 false) }, true)
    else if op = 0 ∧ value = 0xEE then
      match e.stack with
      | [] => .error .emptyStack
      | a :: rest => .ok ({ e with pc := a, stack := rest }, false)
    else if op = 1 then .ok ({ e with pc := address }, false)
    else if op = 2 then .ok ({ e with stack := e.pc :: e.stack, pc := address }, false)
    else if op = 3 then
      .ok (if e.reg.getD x 0 = value then { e with pc := e.pc + 2 } else e, false)
    else if op = 4 then
      .ok (if e.reg.getD x 0 ≠ value then { e with pc := e.pc + 2 } else e, false)
    else if op = 5 ∧ n = 0 then
      .ok (if e.reg.getD x 0 = e.reg.getD y 0 then { e with pc := e.pc + 2 } else e, false)
    else if op = 6 then .ok ({ e with reg := e.reg.set x value }, false)
    else if op = 7 then
      .ok ({ e with reg := e.reg.set x ((e.reg.getD x 0 + value) % 256) }, false)
    else if op = 8 ∧ n = 0 then .ok ({ e with reg := e.reg.set x (e.reg.getD y 0) }, false)
    else if op = 8 ∧ n = 1 then .ok ({ e with reg := exec8xy1 e.reg x y }, false)
    else if op = 8 ∧ n = 2 then .ok ({ e with reg := exec8xy2 e.reg x y }, false)
    else if op = 8 ∧ n = 3 then .ok ({ e with reg := exec8xy3 e.reg x y }, false)
    else if op = 8 ∧ n = 4 then .ok ({ e with reg := exec8xy4 e.reg x y }, false)
    else if op = 8 ∧ n = 5 then .ok ({ e with reg := exec8xy5 e.reg x y }, false)
    else if op = 8 ∧ n = 6 then .ok ({ e with reg := exec8xy6 e.reg x y }, false)
    else if op = 8 ∧ n = 7 then .ok ({ e with reg := exec8xy7 e.reg x y }, false)
    else if op = 8 ∧ n = 0xE then .ok ({ e with reg := exec8xyE e.reg x y }, false)
    else if op = 9 ∧ n = 0 then
      .ok (if e.reg.getD x 0 ≠ e.reg.getD y 0 then { e with pc := e.pc + 2 } else e, false)
    else if op = 0xA then .ok ({ e with idx := address }, false)
    else if op = 0xB then .ok ({ e with pc := address + e.reg.getD 0 0 }, false)
    else if op = 0xC then .ok ({ e with reg := e.reg.set x (inp.rand &&& value) }, false)
    else if op = 0xD then
      match execDxyn e.mem e.reg e.idx x y n e.screen with
      | none => .error .outOfBounds
      | some (s, r) => .ok ({ e with screen := s, reg := r }, true)
    else if op = 0xE ∧ value = 0x9E then
      match execEx9E inp.pressed e.reg x e.pc with
      | none => .error .outOfBounds
      | some pc1 => .ok ({ e with pc := pc1 }, false)
    else if op = 0xE ∧ value = 0xA1 then
      match execExA1 inp.pressed e.reg x e.pc with
      | none => .error .outOfBounds
      | some pc1 => .ok ({ e with pc := pc1 }, false)
    else if op = 0xF ∧ value = 0x07 then .ok ({ e with reg := e.reg.set x e.delay }, false)
    else if op = 0xF ∧ value = 0x0A then
      match (List.range 15).find? (fun i => inp.released.contains i) with
      | some i => .ok ({ e with reg := e.reg.set x i }, false)
      | none => .ok ({ e with pc := e.pc - 2 }, false)
    else if op = 0xF ∧ value = 0x15 then .ok ({ e with delay := e.reg.getD x 0 }, false)
    else if op = 0xF ∧ value = 0x18 then .ok ({ e with sound := e.reg.getD x 0 }, false)
    else if op = 0xF ∧ value = 0x1E then
      .ok ({ e with idx := (e.idx + e.reg.getD x 0) % 65536 }, false)
    else if op = 0xF ∧ value = 0x29 then .ok ({ e with idx := execFx29 e.reg x }, false)
    else if op = 0xF ∧ value = 0x33 then
      let number := e.reg.getD x 0
      match writeMem e.mem e.idx (number / 100) with
      | none => .error .outOfBounds
      | some m1 =>
        match writeMem m1 (e.idx + 1) (number % 100 / 10) with
        | none => .error .outOfBounds
        | some m2 =>
          match writeMem m2 (e.idx + 2) (number % 10) with
          | none => .error .outOfBounds
          | some m3 => .ok ({ e with mem := m3 }, false)
    else if op = 0xF ∧ value = 0x55 then
      match execFx55 e.reg x e.mem e.idx with
      | none => .error .outOfBounds
      | some (m, i) => .ok ({ e with mem := m, idx := i }, false)
    else if op = 0xF ∧ value = 0x65 then
      match execFx65 e.mem x e.reg e.idx with
      | none => .error .outOfBounds
      | some (r, i) => .ok ({ e with reg := r, idx := i }, false)
    else .error .invalidInstruction

/-- Run up to `fuel` cycles of the inner instruction batch; a `break` opcode
(clear or draw) ends the batch, an error aborts it. -/
def runCycles (inp : CycleInput) : Nat → Emulator → Except EmuError Emulator
  | 0, e => .ok e
  | fuel + 1, e =>
    match step inp e with
    | .error err => .error err
    | .ok (e1, true) => .ok e1
    | .ok (e1, false) => runCycles inp fuel e1

/-- The font sprite table `FONTS` of the Rust code. -/
def FONTS : List Nat :=
  [0xF0, 0x90, 0x90, 0x90, 0xF0,
   0x20, 0x60, 0x20, 0x20, 0x70,
   0xF0, 0x10, 0xF0, 0x80, 0xF0,
   0xF0, 0x10, 0xF0, 0x10, 0xF0,
   0x90, 0x90, 0xF0, 0x10, 0x10,
   0xF0, 0x80, 0xF0, 0x10, 0xF0,
   0xF0, 0x80, 0xF0, 0x90, 0xF0,
   0xF0, 0x10, 0x20, 0x40, 0x40,
   0xF0, 0x90, 0xF0, 0x90, 0xF0,
   0xF0, 0x90, 0xF0, 0x10, 0xF0,
   0xF0, 0x90, 0xF0, 0x90, 0x90,
   0xE0, 0x90, 0xE0, 0x90, 0xE0,
   0xF0, 0x80, 0x80, 0x80, 0xF0,
   0xE0, 0x90, 0x90, 0x90, 0xE0,
   0xF0, 0x80, 0xF0, 0x80, 0xF0,
   0xF0, 0x80, 0xF0, 0x80, 0x80]

/-- Copy a byte sequence into memory starting at `base`
(`mem[base..base+len].copy_from_slice(data)`). -/
def loadRegion (mem : Nat → Nat) (base : Nat) (ds : List Nat) : Nat → Nat :=
  match ds with
  | [] => mem
  | d :: rest => loadRegion (fun q => if q = base then d else mem q) (base + 1) rest

/-- `Emulator::new`: 4096 zeroed bytes with the font table at 0x50 and the
program at 0x200, registers and timers zeroed, empty stack, `pc = 0x200`,
cleared screen. -/
def initEmulator (program : List Nat) : Emulator :=
  { mem := loadRegion (loadRegion (fun _ => 0) 0x50 FONTS) 0x200 program
    reg := List.replicate 16 0
    stack := []
    pc := 0x200
    idx := 0
    delay := 0
    sound := 0
    screen := List.replicate 32 (List.replicate 64 false) }

/-- A cycle input with no keys pressed or released and random byte 0. -/
def quietInput : CycleInput :=
  { pressed := [], released := [], rand := 0 }

example : execFx29 [3, 0, 0, 0] 0 = 0x5F := by decide

example :
    (runCycles quietInput 1 (initEmulator [0x60, 0x05])).map (fun e => (e.reg, e.pc)) =
      .ok ((List.replicate 16 0).set 0 5, 0x202) := by
  rfl

/-! ### Basic facts about `List.set` / `List.getD` and `writeMem` -/

theorem getD_set_self {α : Type} (l : List α) (i : Nat) (v d : α)
    (h : i < l.length) : (l.set i v).getD i d = v := by
  rw [List.getD_eq_getElem?_getD, List.getElem?_set_self h]
  rfl

theorem getD_set_ne {α : Type} (l : List α) (i j : Nat) (v d : α)
    (h : i ≠ j) : (l.set i v).getD j d = l.getD j d := by
  rw [List.getD_eq_getElem?_getD, List.getElem?_set_ne h, ← List.getD_eq_getElem?_getD]

theorem writeMem_some {m : Nat → Nat} {a v : Nat} {m1 : Nat → Nat}
    (h : writeMem m a v = some m1) :
    a < memSize ∧ m1 a = v ∧ ∀ q, q ≠ a → m1 q = m q := by
  unfold writeMem at h
  split at h
  · cases h
    refine ⟨by assumption, by simp, ?_⟩
    intro q hq
    simp [hq]
  · cases h

theorem writeMem_isSome {m : Nat → Nat} {a v : Nat} (h : a < memSize) :
    writeMem m a v = some (fun q => if q = a then v else m q) := by
  unfold writeMem
  rw [if_pos h]

/-! ### C2 — font-character address (Fx29) -/

/-- A register file whose register 2 holds the value 0x10. -/
def regSixteen : List Nat := (List.replicate 16 0).set 2 0x10

/-- Claim C2 counterexample: with `Reg[2] = 0x10`, opcode F229 sets
`idx = 0x50 + 5 * 0x10 = 0xA0`, not `0x50 + 5 * (0x10 AND 0xF) = 0x50` as the
claim states: the low-nibble mask is not applied to the register value. -/
theorem c2_font_counterexample :
    execFx29 regSixteen 2 ≠ 0x50 + 5 * (regSixteen.getD 2 0 &&& 0xF) ∧
    execFx29 regSixteen 2 = 0xA0 ∧
    0x50 + 5 * (regSixteen.getD 2 0 &&& 0xF) = 0x50 := by
  decide

/-- Claim C2, amended: opcode Fx29 sets `idx = 0x50 + 5 * Reg[x]` using the
full 8-bit register value; the `AND 0xF` in the source is applied to the
operand nibble `x` (which is always below 16, making the mask a no-op), not to
the register value. -/
theorem c2_font_amended (reg : List Nat) (x : Nat) (hx : x < 16) :
    execFx29 reg x = 0x50 + 5 * reg.getD x 0 := by
  have h16 : ∀ z, z < 16 → z &&& 0xF = z := by decide
  unfold execFx29
  rw [h16 x hx]

/-- Witness for `c2_font_amended` at `x = 2`, `Reg[2] = 0x10`. -/
theorem c2_font_amended_witness :
    execFx29 regSixteen 2 = 0x50 + 5 * regSixteen.getD 2 0 :=
  c2_font_amended regSixteen 2 (by decide)

/-! ### C3 — key skips (Ex9E / ExA1) -/

/-- A register file whose register 0 holds the value 0x10. -/
def regKeyHigh : List Nat := (List.replicate 16 0).set 0 0x10

/-- Claim C3 counterexample: with `Reg[0] = 0x10` and no key pressed, the
claim says Ex9E consults the key mapped to `0x10 AND 0xF = 0` (not pressed)
and leaves `pc` at 0x202, and that ExA1 skips to 0x204; instead the code
indexes the 16-entry key table with the full value 0x10, which is an
out-of-bounds panic (`none`) for both opcodes. -/
theorem c3_key_counterexample :
    execEx9E [] regKeyHigh 0 0x202 = none ∧
    execEx9E [] regKeyHigh 0 0x202 ≠ some 0x202 ∧
    execExA1 [] regKeyHigh 0 0x202 = none ∧
    execExA1 [] regKeyHigh 0 0x202 ≠ some 0x204 := by
  decide

/-- Claim C3, amended: Ex9E / ExA1 index the key table with the full value of
`Reg[x]`: when `Reg[x] < 16` they consult the key `Reg[x]` itself (no nibble
masking is involved) and advance `pc` by an extra 2 when the respective
condition holds; when `Reg[x] ≥ 16` the table lookup is an out-of-bounds
panic. -/
theorem c3_key_amended (pressed reg : List Nat) (x pc : Nat) :
    (reg.getD x 0 < 16 →
      execEx9E pressed reg x pc =
        some (if pressed.contains (reg.getD x 0) then pc + 2 else pc) ∧
      execExA1 pressed reg x pc =
        some (if pressed.contains (reg.getD x 0) then pc else pc + 2)) ∧
    (16 ≤ reg.getD x 0 →
      execEx9E pressed reg x pc = none ∧ execExA1 pressed reg x pc = none) := by
  constructor
  · intro h
    constructor
    · unfold execEx9E keyAt
      rw [if_pos h]
    · unfold execExA1 keyAt
      rw [if_pos h]
  · intro h
    constructor
    · unfold execEx9E keyAt
      rw [if_neg (by omega)]
    · unfold execExA1 keyAt
      rw [if_neg (by omega)]

/-- Witness for `c3_key_amended`: key 3 pressed, `Reg[0] = 3`, so Ex9E skips
and ExA1 does not. -/
theorem c3_key_amended_witness :
    execEx9E [3] ((List.replicate 16 0).set 0 3) 0 0x202 = some 0x204 ∧
    execExA1 [3] ((List.replicate 16 0).set 0 3) 0 0x202 = some 0x202 := by
  have h := (c3_key_amended [3] ((List.replicate 16 0).set 0 3) 0 0x202).1 (by decide)
  exact ⟨h.1.trans (by decide), h.2.trans (by decide)⟩

/-! ### C6 — OR/AND/XOR zero the flag register -/

/-- Claim C6: for every prior register file, after 8xy1 / 8xy2 / 8xy3 register
0xF is 0, and (when `x ≠ 0xF`) the primary result `op(Reg[x], Reg[y])` has been
stored in `Reg[x]` — the flag zeroing happens after the result store, so it
wins even when `x = 0xF`. -/
theorem c6_logic_flag_reset (reg : List Nat) (x y : Nat)
    (hreg : reg.length = 16) (hx : x < 16) :
    ((exec8xy1 reg x y).getD 15 0 = 0 ∧
      (x ≠ 15 → (exec8xy1 reg x y).getD x 0 = reg.getD x 0 ||| reg.getD y 0)) ∧
    ((exec8xy2 reg x y).getD 15 0 = 0 ∧
      (x ≠ 15 → (exec8xy2 reg x y).getD x 0 = reg.getD x 0 &&& reg.getD y 0)) ∧
    ((exec8xy3 reg x y).getD 15 0 = 0 ∧
      (x ≠ 15 → (exec8xy3 reg x y).getD x 0 = reg.getD x 0 ^^^ reg.getD y 0)) := by
  have hlen : ∀ v : Nat, (reg.set x v).length = 16 := by
    intro v
    rw [List.length_set, hreg]
  refine ⟨⟨?_, ?_⟩, ⟨?_, ?_⟩, ⟨?_, ?_⟩⟩
  · exact getD_set_self _ 15 0 0 (by rw [hlen]; omega)
  · intro hne
    unfold exec8xy1
    rw [getD_set_ne _ 15 x _ _ (by omega), getD_set_self _ x _ 0 (by rw [hreg]; omega)]
  · exact getD_set_self _ 15 0 0 (by rw [hlen]; omega)
  · intro hne
    unfold exec8xy2
    rw [getD_set_ne _ 15 x _ _ (by omega), getD_set_self _ x _ 0 (by rw [hreg]; omega)]
  · exact getD_set_self _ 15 0 0 (by rw [hlen]; omega)
  · intro hne
    unfold exec8xy3
    rw [getD_set_ne _ 15 x _ _ (by omega), getD_set_self _ x _ 0 (by rw [hreg]; omega)]

/-- A register file with `Reg[0] = 0xCC`, `Reg[1] = 0xAA` and whose flag
register already holds 7. -/
def regFlagSet : List Nat :=
  (((List.replicate 16 0).set 0 0xCC).set 1 0xAA).set 15 7

/-- Witness for `c6_logic_flag_reset` on a register file whose flag register
already holds 7 (`Reg[0] = 0xCC`, `Reg[1] = 0xAA`, `Reg[0xF] = 7`). -/
theorem c6_logic_flag_reset_witness :
    ((exec8xy1 regFlagSet 0 1).getD 15 0 = 0 ∧
      (0 ≠ 15 → (exec8xy1 regFlagSet 0 1).getD 0 0 =
        regFlagSet.getD 0 0 ||| regFlagSet.getD 1 0)) ∧
    ((exec8xy2 regFlagSet 0 1).getD 15 0 = 0 ∧
      (0 ≠ 15 → (exec8xy2 regFlagSet 0 1).getD 0 0 =
        regFlagSet.getD 0 0 &&& regFlagSet.getD 1 0)) ∧
    ((exec8xy3 regFlagSet 0 1).getD 15 0 = 0 ∧
      (0 ≠ 15 → (exec8xy3 regFlagSet 0 1).getD 0 0 =
        regFlagSet.getD 0 0 ^^^ regFlagSet.getD 1 0)) :=
  c6_logic_flag_reset regFlagSet 0 1 (by decide) (by decide)

/-! ### C7 — subtract with borrow (8xy5 / 8xy7) -/

/-- Claim C7: for byte values `a = Reg[x]`, `b = Reg[y]`, opcode 8xy5 stores
`(a - b) mod 256` in `Reg[x]` (read here when `x ≠ 0xF`, since the flag write
lands on the same cell otherwise) and sets `Reg[0xF] = 1` iff `a ≥ b`
(no borrow); 8xy7 is the mirror image: `(b - a) mod 256` and flag 1 iff
`b ≥ a`. -/
theorem c7_sub_borrow (reg : List Nat) (x y : Nat)
    (hreg : reg.length = 16) (hx : x < 16)
    (ha : reg.getD x 0 < 256) (hb : reg.getD y 0 < 256) :
    ((exec8xy5 reg x y).getD 15 0 = 1 ↔ reg.getD y 0 ≤ reg.getD x 0) ∧
    (x ≠ 15 → ((exec8xy5 reg x y).getD x 0 : ℤ) =
      ((reg.getD x 0 : ℤ) - (reg.getD y 0 : ℤ)) % 256) ∧
    ((exec8xy7 reg x y).getD 15 0 = 1 ↔ reg.getD x 0 ≤ reg.getD y 0) ∧
    (x ≠ 15 → ((exec8xy7 reg x y).getD x 0 : ℤ) =
      ((reg.getD y 0 : ℤ) - (reg.getD x 0 : ℤ)) % 256) := by
  have hlen : ∀ v : Nat, (reg.set x v).length = 16 := by
    intro v
    rw [List.length_set, hreg]
  refine ⟨?_, ?_, ?_, ?_⟩
  · unfold exec8xy5
    rw [getD_set_self _ 15 _ 0 (by rw [hlen]; omega)]
    split <;> omega
  · intro hne
    unfold exec8xy5
    rw [getD_set_ne _ 15 x _ _ (by omega), getD_set_self _ x _ 0 (by rw [hreg]; omega)]
    omega
  · unfold exec8xy7
    rw [getD_set_self _ 15 _ 0 (by rw [hlen]; omega)]
    split <;> omega
  · intro hne
    unfold exec8xy7
    rw [getD_set_ne _ 15 x _ _ (by omega), getD_set_self _ x _ 0 (by rw [hreg]; omega)]
    omega

/-- A register file with `Reg[0] = 5` and `Reg[1] = 7`. -/
def regFiveSeven : List Nat := ((List.replicate 16 0).set 0 5).set 1 7

/-- Witness for `c7_sub_borrow` at `a = 5`, `b = 7`: `5 - 7` borrows
(flag 0, result 254) while `7 - 5` does not (flag 1, result 2). -/
theorem c7_sub_borrow_witness :
    ((exec8xy5 regFiveSeven 0 1).getD 15 0 = 1 ↔
      regFiveSeven.getD 1 0 ≤ regFiveSeven.getD 0 0) ∧
    (0 ≠ 15 → ((exec8xy5 regFiveSeven 0 1).getD 0 0 : ℤ) =
      ((regFiveSeven.getD 0 0 : ℤ) - (regFiveSeven.getD 1 0 : ℤ)) % 256) ∧
    ((exec8xy7 regFiveSeven 0 1).getD 15 0 = 1 ↔
      regFiveSeven.getD 0 0 ≤ regFiveSeven.getD 1 0) ∧
    (0 ≠ 15 → ((exec8xy7 regFiveSeven 0 1).getD 0 0 : ℤ) =
      ((regFiveSeven.getD 1 0 : ℤ) - (regFiveSeven.getD 0 0 : ℤ)) % 256) :=
  c7_sub_borrow regFiveSeven 0 1 (by decide) (by decide) (by decide) (by decide)

/-! ### C10 — flag-writing ALU ops with destination x = 0xF -/

/-- Claim C10: for the flag-writing ALU and shift opcodes, when the
destination register is 0xF the flag write happens after the result write, so
the whole register file update collapses to writing only the flag: the
computed sum/difference/shift result is discarded. -/
theorem c10_flag_destination (reg : List Nat) (y : Nat) :
    exec8xy4 reg 15 y =
      reg.set 15 (if 256 ≤ reg.getD 15 0 + reg.getD y 0 then 1 else 0) ∧
    exec8xy5 reg 15 y =
      reg.set 15 (if reg.getD 15 0 < reg.getD y 0 then 0 else 1) ∧
    exec8xy6 reg 15 y = reg.set 15 (reg.getD y 0 &&& 1) ∧
    exec8xy7 reg 15 y =
      reg.set 15 (if reg.getD y 0 < reg.getD 15 0 then 0 else 1) ∧
    exec8xyE reg 15 y = reg.set 15 ((reg.getD y 0 &&& 128) >>> 7) := by
  refine ⟨?_, ?_, ?_, ?_, ?_⟩ <;>
    simp only [exec8xy4, exec8xy5, exec8xy6, exec8xy7, exec8xyE, List.set_set]

/-! ### C8 — return with an empty call stack -/

/-- Claim C8: when the call stack is empty, executing opcode 00EE is the fatal
error `tried to pop an empty stack`: the cycle, and with it the whole batch,
stops with a non-successful result — no state is returned, so it is neither a
no-op nor a pop. -/
theorem c8_empty_stack_return (inp : CycleInput) (e : Emulator)
    (hstack : e.stack = []) (hb0 : e.mem e.pc = 0x00)
    (hb1 : e.mem (e.pc + 1) = 0xEE) (hpc : e.pc + 2 ≤ memSize) :
    step inp e = .error .emptyStack ∧
    ∀ k, runCycles inp (k + 1) e = .error .emptyStack := by
  have h1 : step inp e = .error .emptyStack := by
    unfold step
    rw [if_neg (by omega)]
    simp only [hb0, hb1, hstack]
    norm_num
  refine ⟨h1, ?_⟩
  intro k
  unfold runCycles
  rw [h1]

/-- Witness for `c8_empty_stack_return`: a freshly loaded program whose first
instruction is 00EE (the stack is empty at load). -/
theorem c8_empty_stack_return_witness :
    step quietInput (initEmulator [0x00, 0xEE]) = .error .emptyStack :=
  (c8_empty_stack_return quietInput (initEmulator [0x00, 0xEE])
    rfl (by decide) (by decide) (by decide)).1

/-! ### C9 — register dump / load (Fx55 / Fx65) -/

/-- The Fx55 loop writes `reg[is[t]]` to `mem[idx + t]` and leaves the index
register advanced by the number of loop iterations; memory outside the written
window is untouched. -/
theorem dumpLoop_spec (reg : List Nat) :
    ∀ (is : List Nat) (mem : Nat → Nat) (idx : Nat),
      idx + is.length ≤ memSize →
      ∃ m1, dumpLoop reg is mem idx = some (m1, idx + is.length) ∧
        (∀ t, t < is.length → m1 (idx + t) = reg.getD (is.getD t 0) 0) ∧
        (∀ a, a < idx ∨ idx + is.length ≤ a → m1 a = mem a)
  | [], mem, idx, _ => by
    refine ⟨mem, by simp [dumpLoop], by simp, by simp⟩
  | i :: rest, mem, idx, h => by
    have hlt : idx < memSize := by
      simp only [List.length_cons] at h
      omega
    have hrec := dumpLoop_spec reg rest
      (fun q => if q = idx then reg.getD i 0 else mem q) (idx + 1)
      (by simp only [List.length_cons] at h; omega)
    obtain ⟨m1, heq, hcopy, hout⟩ := hrec
    refine ⟨m1, ?_, ?_, ?_⟩
    · unfold dumpLoop
      rw [writeMem_isSome hlt]
      show dumpLoop reg rest _ (idx + 1) = _
      rw [heq]
      simp only [List.length_cons]
      congr 2
      omega
    · intro t ht
      match t with
      | 0 =>
        have h0 : m1 (idx + 0) =
            (fun q => if q = idx then reg.getD i 0 else mem q) (idx + 0) :=
          hout (idx + 0) (by omega)
        simpa using h0
      | t + 1 =>
        have := hcopy t (by simpa using ht)
        have harith : idx + 1 + t = idx + (t + 1) := by omega
        rw [harith] at this
        simpa using this
    · intro a hcase
      have h1 : m1 a = (fun q => if q = idx then reg.getD i 0 else mem q) a := by
        apply hout
        simp only [List.length_cons] at hcase
        omega
      rw [h1]
      have : a ≠ idx := by
        simp only [List.length_cons] at hcase
        omega
      simp [this]

/-- The Fx65 loop reads `mem[idx + t]` into `reg[is[t]]` and leaves the index
register advanced by the number of loop iterations; registers outside `is` are
untouched. -/
theorem loadLoop_spec (mem : Nat → Nat) :
    ∀ (is : List Nat) (reg : List Nat) (idx : Nat),
      is.Nodup → idx + is.length ≤ memSize →
      ∃ r1, loadLoop mem is reg idx = some (r1, idx + is.length) ∧
        r1.length = reg.length ∧
        (∀ t, t < is.length → is.getD t 0 < reg.length →
          r1.getD (is.getD t 0) 0 = mem (idx + t)) ∧
        (∀ k, (∀ t, t < is.length → is.getD t 0 ≠ k) → r1.getD k 0 = reg.getD k 0)
  | [], reg, idx, _, _ => by
    refine ⟨reg, by simp [loadLoop], rfl, by simp, by simp⟩
  | i :: rest, reg, idx, hnd, h => by
    have hlt : idx < memSize := by
      simp only [List.length_cons] at h
      omega
    have hrec := loadLoop_spec mem rest (reg.set i (mem idx)) (idx + 1)
      (by exact hnd.of_cons) (by simp only [List.length_cons] at h; omega)
    obtain ⟨r1, heq, hlen, hcopy, hkeep⟩ := hrec
    have hnotmem : i ∉ rest := by
      simpa using (List.nodup_cons.mp hnd).1
    refine ⟨r1, ?_, ?_, ?_, ?_⟩
    · unfold loadLoop readMem
      rw [if_pos hlt]
      show loadLoop mem rest _ (idx + 1) = _
      rw [heq]
      simp only [List.length_cons]
      congr 2
      omega
    · rw [hlen, List.length_set]
    · intro t ht hbound
      match t with
      | 0 =>
        have hieq : (i :: rest).getD 0 0 = i := rfl
        rw [hieq] at hbound ⊢
        have h0 : r1.getD i 0 = (reg.set i (mem idx)).getD i 0 := by
          apply hkeep
          intro t ht1
          have : rest.getD t 0 ∈ rest := by
            rw [List.getD_eq_getElem rest 0 (by omega)]
            exact List.getElem_mem _
          intro hcontra
          rw [hcontra] at this
          exact hnotmem this
        rw [h0, getD_set_self _ i _ 0 hbound]
        simp
      | t + 1 =>
        have hieq : (i :: rest).getD (t + 1) 0 = rest.getD t 0 := rfl
        rw [hieq] at hbound ⊢
        have := hcopy t (by simpa using ht) (by rw [List.length_set]; exact hbound)
        have harith : idx + 1 + t = idx + (t + 1) := by omega
        rw [harith] at this
        exact this
    · intro k hk
      have h1 : r1.getD k 0 = (reg.set i (mem idx)).getD k 0 := by
        apply hkeep
        intro t ht1
        exact hk (t + 1) (by simp; omega)
      rw [h1]
      apply getD_set_ne
      exact hk 0 (by simp)

/-- Claim C9: when the accesses fit in memory, Fx55 succeeds, leaves
`idx` advanced by exactly `x + 1`, stores registers 0 through `x` to the
consecutive cells `idx .. idx + x` (one `idx` increment per register, not
restored afterward) and changes no other memory cell; Fx65 symmetrically
succeeds, advances `idx` by `x + 1`, loads registers 0 through `x` from the
consecutive cells and changes no other register. -/
theorem c9_dump_load (reg : List Nat) (mem : Nat → Nat) (x idx : Nat)
    (hx : x < 16) (hreg : reg.length = 16) (hin : idx + x < memSize) :
    (execFx55 reg x mem idx).isSome = true ∧
    ((execFx55 reg x mem idx).getD (mem, idx)).2 = idx + (x + 1) ∧
    (∀ i, i ≤ x →
      ((execFx55 reg x mem idx).getD (mem, idx)).1 (idx + i) = reg.getD i 0) ∧
    (∀ a, a < idx ∨ idx + x < a →
      ((execFx55 reg x mem idx).getD (mem, idx)).1 a = mem a) ∧
    (execFx65 mem x reg idx).isSome = true ∧
    ((execFx65 mem x reg idx).getD (reg, idx)).2 = idx + (x + 1) ∧
    (∀ i, i ≤ x →
      ((execFx65 mem x reg idx).getD (reg, idx)).1.getD i 0 = mem (idx + i)) ∧
    (∀ k, x < k →
      ((execFx65 mem x reg idx).getD (reg, idx)).1.getD k 0 = reg.getD k 0) := by
  have hrange : ∀ t, t < x + 1 → (List.range (x + 1)).getD t 0 = t := by
    intro t ht
    rw [List.getD_eq_getElem _ 0 (by simpa using ht), List.getElem_range]
  obtain ⟨m1, heq55, hcopy55, hout55⟩ :=
    dumpLoop_spec reg (List.range (x + 1)) mem idx
      (by simp only [List.length_range]; omega)
  obtain ⟨r1, heq65, hlen65, hcopy65, hkeep65⟩ :=
    loadLoop_spec mem (List.range (x + 1)) reg idx
      (List.nodup_range _) (by simp only [List.length_range]; omega)
  unfold execFx55 execFx65
  rw [heq55, heq65]
  simp only [Option.getD_some, Option.isSome_some, List.length_range]
  refine ⟨trivial, trivial, ?_, ?_, trivial, trivial, ?_, ?_⟩
  · intro i hi
    have := hcopy55 i (by simp only [List.length_range]; omega)
    rw [hrange i (by omega)] at this
    exact this
  · intro a ha
    apply hout55
    simp only [List.length_range]
    omega
  · intro i hi
    have := hcopy65 i (by simp only [List.length_range]; omega)
      (by rw [hrange i (by omega), hreg]; omega)
    rw [hrange i (by omega)] at this
    exact this
  · intro k hk
    apply hkeep65
    intro t ht
    rw [hrange t (by simpa using ht)]
    simp only [List.length_range] at ht
    omega

/-- Witness for `c9_dump_load`: `x = 1`, `idx = 2`, constant memory 9,
registers `Reg[0] = 5`, `Reg[1] = 7`. -/
theorem c9_dump_load_witness :
    (execFx55 regFiveSeven 1 (fun _ => 9) 2).isSome = true ∧
    ((execFx55 regFiveSeven 1 (fun _ => 9) 2).getD (fun _ => 9, 2)).2 = 2 + (1 + 1) ∧
    (∀ i, i ≤ 1 →
      ((execFx55 regFiveSeven 1 (fun _ => 9) 2).getD (fun _ => 9, 2)).1 (2 + i) =
        regFiveSeven.getD i 0) ∧
    (∀ a, a < 2 ∨ 2 + 1 < a →
      ((execFx55 regFiveSeven 1 (fun _ => 9) 2).getD (fun _ => 9, 2)).1 a = 9) ∧
    (execFx65 (fun _ => 9) 1 regFiveSeven 2).isSome = true ∧
    ((execFx65 (fun _ => 9) 1 regFiveSeven 2).getD (regFiveSeven, 2)).2 = 2 + (1 + 1) ∧
    (∀ i, i ≤ 1 →
      ((execFx65 (fun _ => 9) 1 regFiveSeven 2).getD (regFiveSeven, 2)).1.getD i 0 = 9) ∧
    (∀ k, 1 < k →
      ((execFx65 (fun _ => 9) 1 regFiveSeven 2).getD (regFiveSeven, 2)).1.getD k 0 =
        regFiveSeven.getD k 0) :=
  c9_dump_load regFiveSeven (fun _ => 9) 1 2 (by decide) (by decide) (by decide)

/-! ### C1 — memory bounds -/

/-- Claim C1 counterexample: a reachable out-of-bounds access.  The two-
instruction program `AFFF F033` (set `idx = 0xFFF`, then BCD-store `Reg[0]`)
reaches the BCD opcode with `idx = 0xFFF`; the store then writes
`mem[0xFFF]`, `mem[0x1000]`, `mem[0x1001]` — the raw computed addresses
`idx + 1 = 0x1000 ≥ 4096` are used unmasked and the run aborts with an
out-of-bounds panic, refuting the claim that every computed address is
masked or bounds-checked by the engine before use. -/
theorem c1_bounds_counterexample :
    runCycles quietInput 2 (initEmulator [0xAF, 0xFF, 0xF0, 0x33]) =
      .error .outOfBounds := by
  rfl

/-- Memory cells at or beyond `memSize` are never changed by the Fx55 store
loop: every write is bounds-checked at the access site. -/
theorem dumpLoop_high (reg : List Nat) :
    ∀ (is : List Nat) (mem : Nat → Nat) (idx : Nat) (m1 : Nat → Nat) (i1 : Nat),
      dumpLoop reg is mem idx = some (m1, i1) →
      ∀ q, memSize ≤ q → m1 q = mem q
  | [], mem, idx, m1, i1, h => by
    unfold dumpLoop at h
    simp only [Option.some.injEq, Prod.mk.injEq] at h
    obtain ⟨h1, _⟩ := h
    subst h1
    intro q _
    rfl
  | i :: rest, mem, idx, m1, i1, h => by
    unfold dumpLoop at h
    split at h
    · cases h
    · rename_i mem1 hw
      intro q hq
      have h2 := dumpLoop_high reg rest mem1 (idx + 1) m1 i1 h q hq
      rw [h2]
      obtain ⟨_, _, hother⟩ := writeMem_some hw
      exact hother q (by omega)

set_option maxHeartbeats 2000000 in
/-- Claim C1, amended: raw computed addresses are used at every access site,
guarded only by the array's own bounds check, whose failure is a fatal panic
(see `c1_bounds_counterexample`); consequently no memory cell outside the
4096-byte array is ever read or written — every successful cycle leaves every
cell at address ≥ 4096 untouched, and a cycle that would touch one aborts
with an error instead. -/
theorem c1_bounds_amended (inp : CycleInput) (e : Emulator) :
    match step inp e with
    | .ok (e1, _) => ∀ a, memSize ≤ a → e1.mem a = e.mem a
    | .error _ => True := by
  rcases hstep : step inp e with err | ⟨e1, brk⟩
  · trivial
  · intro a ha
    unfold step at hstep
    by_cases hfetch : memSize < e.pc + 2
    · rw [if_pos hfetch] at hstep
      exact Except.noConfusion hstep
    · rw [if_neg hfetch] at hstep
      lift_lets at hstep
      extract_lets b0 b1 op x y n value address e2 number at hstep
      by_cases hc0 : op = 0 ∧ value = 0xE0
      · rw [if_pos hc0] at hstep
        repeat' split at hstep
        all_goals try (exact Except.noConfusion hstep)
        all_goals (injection hstep with h3; injection h3 with h5 h6; subst h5)
        all_goals first
          | rfl
          | (split <;> rfl)
      · rw [if_neg hc0] at hstep
        by_cases hc1 : op = 0 ∧ value = 0xEE
        · rw [if_pos hc1] at hstep
          repeat' split at hstep
          all_goals try (exact Except.noConfusion hstep)
          all_goals (injection hstep with h3; injection h3 with h5 h6; subst h5)
          all_goals first
            | rfl
            | (split <;> rfl)
        · rw [if_neg hc1] at hstep
          by_cases hc2 : op = 1
          · rw [if_pos hc2] at hstep
            repeat' split at hstep
            all_goals try (exact Except.noConfusion hstep)
            all_goals (injection hstep with h3; injection h3 with h5 h6; subst h5)
            all_goals first
              | rfl
              | (split <;> rfl)
          · rw [if_neg hc2] at hstep
            by_cases hc3 : op = 2
            · rw [if_pos hc3] at hstep
              repeat' split at hstep
              all_goals try (exact Except.noConfusion hstep)
              all_goals (injection hstep with h3; injection h3 with h5 h6; subst h5)
              all_goals first
                | rfl
                | (split <;> rfl)
            · rw [if_neg hc3] at hstep
              by_cases hc4 : op = 3
              · rw [if_pos hc4] at hstep
                repeat' split at hstep
                all_goals try (exact Except.noConfusion hstep)
                all_goals (injection hstep with h3; injection h3 with h5 h6; subst h5)
                all_goals first
                  | rfl
                  | (split <;> rfl)
              · rw [if_neg hc4] at hstep
                by_cases hc5 : op = 4
                · rw [if_pos hc5] at hstep
                  repeat' split at hstep
                  all_goals try (exact Except.noConfusion hstep)
                  all_goals (injection hstep with h3; injection h3 with h5 h6; subst h5)
                  all_goals first
                    | rfl
                    | (split <;> rfl)
                · rw [if_neg hc5] at hstep
                  by_cases hc6 : op = 5 ∧ n = 0
                  · rw [if_pos hc6] at hstep
                    repeat' split at hstep
                    all_goals try (exact Except.noConfusion hstep)
                    all_goals (injection hstep with h3; injection h3 with h5 h6; subst h5)
                    all_goals first
                      | rfl
                      | (split <;> rfl)
                  · rw [if_neg hc6] at hstep
                    by_cases hc7 : op = 6
                    · rw [if_pos hc7] at hstep
                      repeat' split at hstep
                      all_goals try (exact Except.noConfusion hstep)
                      all_goals (injection hstep with h3; injection h3 with h5 h6; subst h5)
                      all_goals first
                        | rfl
                        | (split <;> rfl)
                    · rw [if_neg hc7] at hstep
                      by_cases hc8 : op = 7
                      · rw [if_pos hc8] at hstep
                        repeat' split at hstep
                        all_goals try (exact Except.noConfusion hstep)
                        all_goals (injection hstep with h3; injection h3 with h5 h6; subst h5)
                        all_goals first
                          | rfl
                          | (split <;> rfl)
                      · rw [if_neg hc8] at hstep
                        by_cases hc9 : op = 8 ∧ n = 0
                        · rw [if_pos hc9] at hstep
                          repeat' split at hstep
                          all_goals try (exact Except.noConfusion hstep)
                          all_goals (injection hstep with h3; injection h3 with h5 h6; subst h5)
                          all_goals first
                            | rfl
                            | (split <;> rfl)
                        · rw [if_neg hc9] at hstep
                          by_cases hc10 : op = 8 ∧ n = 1
                          · rw [if_pos hc10] at hstep
                            repeat' split at hstep
                            all_goals try (exact Except.noConfusion hstep)
                            all_goals (injection hstep with h3; injection h3 with h5 h6; subst h5)
                            all_goals first
                              | rfl
                              | (split <;> rfl)
                          · rw [if_neg hc10] at hstep
                            by_cases hc11 : op = 8 ∧ n = 2
                            · rw [if_pos hc11] at hstep
                              repeat' split at hstep
                              all_goals try (exact Except.noConfusion hstep)
                              all_goals (injection hstep with h3; injection h3 with h5 h6; subst h5)
                              all_goals first
                                | rfl
                                | (split <;> rfl)
                            · rw [if_neg hc11] at hstep
                              by_cases hc12 : op = 8 ∧ n = 3
                              · rw [if_pos hc12] at hstep
                                repeat' split at hstep
                                all_goals try (exact Except.noConfusion hstep)
                                all_goals (injection hstep with h3; injection h3 with h5 h6; subst h5)
                                all_goals first
                                  | rfl
                                  | (split <;> rfl)
                              · rw [if_neg hc12] at hstep
                                by_cases hc13 : op = 8 ∧ n = 4
                                · rw [if_pos hc13] at hstep
                                  repeat' split at hstep
                                  all_goals try (exact Except.noConfusion hstep)
                                  all_goals (injection hstep with h3; injection h3 with h5 h6; subst h5)
                                  all_goals first
                                    | rfl
                                    | (split <;> rfl)
                                · rw [if_neg hc13] at hstep
                                  by_cases hc14 : op = 8 ∧ n = 5
                                  · rw [if_pos hc14] at hstep
                                    repeat' split at hstep
                                    all_goals try (exact Except.noConfusion hstep)
                                    all_goals (injection hstep with h3; injection h3 with h5 h6; subst h5)
                                    all_goals first
                                      | rfl
                                      | (split <;> rfl)
                                  · rw [if_neg hc14] at hstep
                                    by_cases hc15 : op = 8 ∧ n = 6
                                    · rw [if_pos hc15] at hstep
                                      repeat' split at hstep
                                      all_goals try (exact Except.noConfusion hstep)
                                      all_goals (injection hstep with h3; injection h3 with h5 h6; subst h5)
                                      all_goals first
                                        | rfl
                                        | (split <;> rfl)
                                    · rw [if_neg hc15] at hstep
                                      by_cases hc16 : op = 8 ∧ n = 7
                                      · rw [if_pos hc16] at hstep
                                        repeat' split at hstep
                                        all_goals try (exact Except.noConfusion hstep)
                                        all_goals (injection hstep with h3; injection h3 with h5 h6; subst h5)
                                        all_goals first
                                          | rfl
                                          | (split <;> rfl)
                                      · rw [if_neg hc16] at hstep
                                        by_cases hc17 : op = 8 ∧ n = 0xE
                                        · rw [if_pos hc17] at hstep
                                          repeat' split at hstep
                                          all_goals try (exact Except.noConfusion hstep)
                                          all_goals (injection hstep with h3; injection h3 with h5 h6; subst h5)
                                          all_goals first
                                            | rfl
                                            | (split <;> rfl)
                                        · rw [if_neg hc17] at hstep
                                          by_cases hc18 : op = 9 ∧ n = 0
                                          · rw [if_pos hc18] at hstep
                                            repeat' split at hstep
                                            all_goals try (exact Except.noConfusion hstep)
                                            all_goals (injection hstep with h3; injection h3 with h5 h6; subst h5)
                                            all_goals first
                                              | rfl
                                              | (split <;> rfl)
                                          · rw [if_neg hc18] at hstep
                                            by_cases hc19 : op = 0xA
                                            · rw [if_pos hc19] at hstep
                                              repeat' split at hstep
                                              all_goals try (exact Except.noConfusion hstep)
                                              all_goals (injection hstep with h3; injection h3 with h5 h6; subst h5)
                                              all_goals first
                                                | rfl
                                                | (split <;> rfl)
                                            · rw [if_neg hc19] at hstep
                                              by_cases hc20 : op = 0xB
                                              · rw [if_pos hc20] at hstep
                                                repeat' split at hstep
                                                all_goals try (exact Except.noConfusion hstep)
                                                all_goals (injection hstep with h3; injection h3 with h5 h6; subst h5)
                                                all_goals first
                                                  | rfl
                                                  | (split <;> rfl)
                                              · rw [if_neg hc20] at hstep
                                                by_cases hc21 : op = 0xC
                                                · rw [if_pos hc21] at hstep
                                                  repeat' split at hstep
                                                  all_goals try (exact Except.noConfusion hstep)
                                                  all_goals (injection hstep with h3; injection h3 with h5 h6; subst h5)
                                                  all_goals first
                                                    | rfl
                                                    | (split <;> rfl)
                                                · rw [if_neg hc21] at hstep
                                                  by_cases hc22 : op = 0xD
                                                  · rw [if_pos hc22] at hstep
                                                    repeat' split at hstep
                                                    all_goals try (exact Except.noConfusion hstep)
                                                    all_goals (injection hstep with h3; injection h3 with h5 h6; subst h5)
                                                    all_goals first
                                                      | rfl
                                                      | (split <;> rfl)
                                                  · rw [if_neg hc22] at hstep
                                                    by_cases hc23 : op = 0xE ∧ value = 0x9E
                                                    · rw [if_pos hc23] at hstep
                                                      repeat' split at hstep
                                                      all_goals try (exact Except.noConfusion hstep)
                                                      all_goals (injection hstep with h3; injection h3 with h5 h6; subst h5)
                                                      all_goals first
                                                        | rfl
                                                        | (split <;> rfl)
                                                    · rw [if_neg hc23] at hstep
                                                      by_cases hc24 : op = 0xE ∧ value = 0xA1
                                                      · rw [if_pos hc24] at hstep
                                                        repeat' split at hstep
                                                        all_goals try (exact Except.noConfusion hstep)
                                                        all_goals (injection hstep with h3; injection h3 with h5 h6; subst h5)
                                                        all_goals first
                                                          | rfl
                                                          | (split <;> rfl)
                                                      · rw [if_neg hc24] at hstep
                                                        by_cases hc25 : op = 0xF ∧ value = 0x07
                                                        · rw [if_pos hc25] at hstep
                                                          repeat' split at hstep
                                                          all_goals try (exact Except.noConfusion hstep)
                                                          all_goals (injection hstep with h3; injection h3 with h5 h6; subst h5)
                                                          all_goals first
                                                            | rfl
                                                            | (split <;> rfl)
                                                        · rw [if_neg hc25] at hstep
                                                          by_cases hc26 : op = 0xF ∧ value = 0x0A
                                                          · rw [if_pos hc26] at hstep
                                                            repeat' split at hstep
                                                            all_goals try (exact Except.noConfusion hstep)
                                                            all_goals (injection hstep with h3; injection h3 with h5 h6; subst h5)
                                                            all_goals first
                                                              | rfl
                                                              | (split <;> rfl)
                                                          · rw [if_neg hc26] at hstep
                                                            by_cases hc27 : op = 0xF ∧ value = 0x15
                                                            · rw [if_pos hc27] at hstep
                                                              repeat' split at hstep
                                                              all_goals try (exact Except.noConfusion hstep)
                                                              all_goals (injection hstep with h3; injection h3 with h5 h6; subst h5)
                                                              all_goals first
                                                                | rfl
                                                                | (split <;> rfl)
                                                            · rw [if_neg hc27] at hstep
                                                              by_cases hc28 : op = 0xF ∧ value = 0x18
                                                              · rw [if_pos hc28] at hstep
                                                                repeat' split at hstep
                                                                all_goals try (exact Except.noConfusion hstep)
                                                                all_goals (injection hstep with h3; injection h3 with h5 h6; subst h5)
                                                                all_goals first
                                                                  | rfl
                                                                  | (split <;> rfl)
                                                              · rw [if_neg hc28] at hstep
                                                                by_cases hc29 : op = 0xF ∧ value = 0x1E
                                                                · rw [if_pos hc29] at hstep
                                                                  repeat' split at hstep
                                                                  all_goals try (exact Except.noConfusion hstep)
                                                                  all_goals (injection hstep with h3; injection h3 with h5 h6; subst h5)
                                                                  all_goals first
                                                                    | rfl
                                                                    | (split <;> rfl)
                                                                · rw [if_neg hc29] at hstep
                                                                  by_cases hc30 : op = 0xF ∧ value = 0x29
                                                                  · rw [if_pos hc30] at hstep
                                                                    repeat' split at hstep
                                                                    all_goals try (exact Except.noConfusion hstep)
                                                                    all_goals (injection hstep with h3; injection h3 with h5 h6; subst h5)
                                                                    all_goals first
                                                                      | rfl
                                                                      | (split <;> rfl)
                                                                  · rw [if_neg hc30] at hstep
                                                                    by_cases hc31 : op = 0xF ∧ value = 0x33
                                                                    · rw [if_pos hc31] at hstep
                                                                      repeat' split at hstep
                                                                      all_goals try (exact Except.noConfusion hstep)
                                                                      rename_i s1 m1 hw1 s2 m2 hw2 s3 m3 hw3
                                                                      injection hstep with h3
                                                                      injection h3 with h5 h6
                                                                      subst h5
                                                                      obtain ⟨hb1, _, k1⟩ := writeMem_some hw1
                                                                      obtain ⟨hb2, _, k2⟩ := writeMem_some hw2
                                                                      obtain ⟨hb3, _, k3⟩ := writeMem_some hw3
                                                                      show m3 a = e.mem a
                                                                      rw [k3 a (by omega), k2 a (by omega), k1 a (by omega)]
                                                                    · rw [if_neg hc31] at hstep
                                                                      by_cases hc32 : op = 0xF ∧ value = 0x55
                                                                      · rw [if_pos hc32] at hstep
                                                                        repeat' split at hstep
                                                                        all_goals try (exact Except.noConfusion hstep)
                                                                        rename_i s0 m i hload
                                                                        injection hstep with h3
                                                                        injection h3 with h5 h6
                                                                        subst h5
                                                                        unfold execFx55 at hload
                                                                        exact dumpLoop_high _ _ _ _ _ _ hload a ha
                                                                      · rw [if_neg hc32] at hstep
                                                                        by_cases hc33 : op = 0xF ∧ value = 0x65
                                                                        · rw [if_pos hc33] at hstep
                                                                          repeat' split at hstep
                                                                          all_goals try (exact Except.noConfusion hstep)
                                                                          all_goals (injection hstep with h3; injection h3 with h5 h6; subst h5)
                                                                          all_goals first
                                                                            | rfl
                                                                            | (split <;> rfl)
                                                                        · rw [if_neg hc33] at hstep
                                                                          exact Except.noConfusion hstep

/-! ### C4 / C5 — the draw opcode (Dxyn) -/

/-- Two Boolean scans agree when their predicates agree on the list. -/
theorem any_cong {α : Type} (l : List α) (f g : α → Bool)
    (h : ∀ a ∈ l, f a = g a) : l.any f = l.any g := by
  induction l with
  | nil => rfl
  | cons a t ih =>
    simp only [List.any_cons]
    rw [h a (by simp), ih (fun b hb => h b (by simp [hb]))]

/-- The column loop never changes the length of a screen row. -/
theorem drawCols_length (b xpos : Nat) :
    ∀ (js : List Nat) (row : List Bool) (flag : Nat),
      ((drawCols b xpos js row flag).1).length = row.length
  | [], row, flag => rfl
  | j :: rest, row, flag => by
    simp only [drawCols]
    by_cases h64 : 64 ≤ xpos + j
    · rw [if_pos h64]
    · rw [if_neg h64]
      by_cases hbit : bitMsb b j
      · rw [if_pos hbit]
        by_cases hpix : row.getD (xpos + j) false
        · rw [if_pos hpix, drawCols_length b xpos rest _ _, List.length_set]
        · rw [if_neg hpix, drawCols_length b xpos rest _ _, List.length_set]
      · rw [if_neg hbit, drawCols_length b xpos rest _ _]

/-- Pixel characterization of the column loop: position `q` of the row is
XOR-flipped exactly when some in-range column offset `j` of the scan hits `q`
with a set sprite bit; all other positions are unchanged. -/
theorem drawCols_fst (b xpos : Nat) :
    ∀ (js : List Nat) (row : List Bool) (flag : Nat),
      js.Pairwise (· < ·) → 64 ≤ row.length → ∀ q,
      ((drawCols b xpos js row flag).1).getD q false =
        xor (row.getD q false)
          (js.any fun j => decide (q = xpos + j) && decide (xpos + j < 64) && bitMsb b j)
  | [], row, flag, _, _, q => by
    simp [drawCols]
  | j :: rest, row, flag, hp, hrow, q => by
    obtain ⟨hj, hp2⟩ := List.pairwise_cons.mp hp
    simp only [drawCols, List.any_cons]
    by_cases h64 : 64 ≤ xpos + j
    · rw [if_pos h64]
      have hhead : (decide (q = xpos + j) && decide (xpos + j < 64) && bitMsb b j) = false := by
        have : ¬(xpos + j < 64) := by omega
        simp [this]
      have hrest : (rest.any fun k =>
          decide (q = xpos + k) && decide (xpos + k < 64) && bitMsb b k) = false := by
        rw [List.any_eq_false]
        intro k hk
        have hk2 := hj k hk
        have : ¬(xpos + k < 64) := by omega
        simp [this]
      rw [hhead, hrest]
      simp
    · rw [if_neg h64]
      have hlt : xpos + j < 64 := by omega
      by_cases hbit : bitMsb b j
      · rw [if_pos hbit]
        by_cases hpix : row.getD (xpos + j) false
        · rw [if_pos hpix]
          rw [drawCols_fst b xpos rest _ 1 hp2 (by rw [List.length_set]; exact hrow) q]
          by_cases hq : q = xpos + j
          · subst hq
            rw [getD_set_self _ _ _ _ (lt_of_lt_of_le hlt hrow)]
            have hrest : (rest.any fun k =>
                decide (xpos + j = xpos + k) && decide (xpos + k < 64) && bitMsb b k) = false := by
              rw [List.any_eq_false]
              intro k hk
              have hk2 := hj k hk
              have : ¬(xpos + j = xpos + k) := by omega
              simp [this]
            rw [hrest, hpix]
            simp [hlt, hbit]
          · rw [getD_set_ne _ _ _ _ _ (by omega)]
            have hhead : decide (q = xpos + j) = false := by simp [hq]
            simp [hhead]
        · rw [if_neg hpix]
          rw [drawCols_fst b xpos rest _ flag hp2 (by rw [List.length_set]; exact hrow) q]
          by_cases hq : q = xpos + j
          · subst hq
            rw [getD_set_self _ _ _ _ (lt_of_lt_of_le hlt hrow)]
            have hrest : (rest.any fun k =>
                decide (xpos + j = xpos + k) && decide (xpos + k < 64) && bitMsb b k) = false := by
              rw [List.any_eq_false]
              intro k hk
              have hk2 := hj k hk
              have : ¬(xpos + j = xpos + k) := by omega
              simp [this]
            rw [hrest]
            simp only [hpix, hlt, hbit]
            simp
          · rw [getD_set_ne _ _ _ _ _ (by omega)]
            have hhead : decide (q = xpos + j) = false := by simp [hq]
            simp [hhead]
      · rw [if_neg hbit]
        rw [drawCols_fst b xpos rest row flag hp2 hrow q]
        have hhead : (decide (q = xpos + j) && decide (xpos + j < 64) && bitMsb b j) = false := by
          simp [hbit]
        rw [hhead]
        simp

/-- Flag characterization of the column loop: the flag becomes 1 exactly when
some in-range set sprite bit lands on an already-set pixel of the original
row, and keeps its incoming value otherwise. -/
theorem drawCols_snd (b xpos : Nat) :
    ∀ (js : List Nat) (row : List Bool) (flag : Nat),
      js.Pairwise (· < ·) →
      (drawCols b xpos js row flag).2 =
        cond (js.any fun j =>
          decide (xpos + j < 64) && bitMsb b j && row.getD (xpos + j) false) 1 flag
  | [], row, flag, _ => rfl
  | j :: rest, row, flag, hp => by
    obtain ⟨hj, hp2⟩ := List.pairwise_cons.mp hp
    simp only [drawCols, List.any_cons]
    by_cases h64 : 64 ≤ xpos + j
    · rw [if_pos h64]
      have hhead : (decide (xpos + j < 64) && bitMsb b j && row.getD (xpos + j) false) = false := by
        have : ¬(xpos + j < 64) := by omega
        simp [this]
      have hrest : (rest.any fun k =>
          decide (xpos + k < 64) && bitMsb b k && row.getD (xpos + k) false) = false := by
        rw [List.any_eq_false]
        intro k hk
        have hk2 := hj k hk
        have : ¬(xpos + k < 64) := by omega
        simp [this]
      rw [hhead, hrest]
      simp
    · rw [if_neg h64]
      have hlt : xpos + j < 64 := by omega
      by_cases hbit : bitMsb b j
      · rw [if_pos hbit]
        by_cases hpix : row.getD (xpos + j) false
        · rw [if_pos hpix]
          rw [drawCols_snd b xpos rest _ 1 hp2]
          have hhead : (decide (xpos + j < 64) && bitMsb b j && row.getD (xpos + j) false) = true := by
            rw [hpix, hbit]
            simp [hlt]
          rw [hhead]
          cases rest.any fun k =>
              decide (xpos + k < 64) && bitMsb b k &&
                (row.set (xpos + j) false).getD (xpos + k) false <;> rfl
        · rw [if_neg hpix]
          rw [drawCols_snd b xpos rest _ flag hp2]
          have hcong : (rest.any fun k =>
              decide (xpos + k < 64) && bitMsb b k &&
                (row.set (xpos + j) true).getD (xpos + k) false) =
              (rest.any fun k =>
                decide (xpos + k < 64) && bitMsb b k && row.getD (xpos + k) false) := by
            apply any_cong
            intro k hk
            have hk2 := hj k hk
            rw [getD_set_ne _ _ _ _ _ (by omega)]
          rw [hcong]
          have hhead : (decide (xpos + j < 64) && bitMsb b j && row.getD (xpos + j) false) = false := by
            rw [Bool.not_eq_true] at hpix
            rw [hpix]
            simp
          rw [hhead]
          simp
      · rw [if_neg hbit]
        rw [drawCols_snd b xpos rest row flag hp2]
        have hhead : (decide (xpos + j < 64) && bitMsb b j && row.getD (xpos + j) false) = false := by
          simp [hbit]
        rw [hhead]
        simp

/-- Full characterization of the row scan: sizes are preserved, each pixel is
XOR-flipped exactly when hit by an in-range set sprite bit, and the flag
becomes 1 exactly when a set sprite bit lands on an already-set pixel of the
original screen. -/
theorem drawRows_spec (mem : Nat → Nat) (idx xpos ypos : Nat) :
    ∀ (is : List Nat) (screen : List (List Bool)) (flag : Nat)
      (screen1 : List (List Bool)) (flag1 : Nat),
      is.Pairwise (· < ·) →
      screen.length = 32 →
      (∀ p, p < 32 → (screen.getD p []).length = 64) →
      drawRows mem idx xpos ypos is screen flag = some (screen1, flag1) →
      screen1.length = 32 ∧
      (∀ p, p < 32 → (screen1.getD p []).length = 64) ∧
      (∀ p q, (screen1.getD p []).getD q false =
        xor ((screen.getD p []).getD q false)
          (is.any fun i => decide (p = ypos + i) && decide (ypos + i < 32) &&
            ((List.range 8).any fun j =>
              decide (q = xpos + j) && decide (xpos + j < 64) && bitMsb (mem (idx + i)) j))) ∧
      flag1 = cond (is.any fun i => decide (ypos + i < 32) &&
          ((List.range 8).any fun j => decide (xpos + j < 64) && bitMsb (mem (idx + i)) j &&
            ((screen.getD (ypos + i) []).getD (xpos + j) false))) 1 flag
  | [], screen, flag, screen1, flag1, _, hlen, hrows, h => by
    simp only [drawRows, Option.some.injEq, Prod.mk.injEq] at h
    obtain ⟨h1, h2⟩ := h
    subst h1
    subst h2
    refine ⟨hlen, hrows, by simp, by simp⟩
  | i :: rest, screen, flag, screen1, flag1, hp, hlen, hrows, h => by
    obtain ⟨hj, hp2⟩ := List.pairwise_cons.mp hp
    simp only [drawRows] at h
    by_cases h32 : 32 ≤ ypos + i
    · rw [if_pos h32] at h
      simp only [Option.some.injEq, Prod.mk.injEq] at h
      obtain ⟨h1, h2⟩ := h
      subst h1
      subst h2
      have hnot : ¬(ypos + i < 32) := by omega
      refine ⟨hlen, hrows, ?_, ?_⟩
      · intro p q
        have hany : ((i :: rest).any fun k => decide (p = ypos + k) && decide (ypos + k < 32) &&
            ((List.range 8).any fun j =>
              decide (q = xpos + j) && decide (xpos + j < 64) && bitMsb (mem (idx + k)) j)) = false := by
          rw [List.any_eq_false]
          intro k hk
          rcases List.mem_cons.mp hk with hk1 | hk2
          · subst hk1
            simp [hnot]
          · have := hj k hk2
            have : ¬(ypos + k < 32) := by omega
            simp [this]
        rw [hany]
        simp
      · have hany : ((i :: rest).any fun k => decide (ypos + k < 32) &&
            ((List.range 8).any fun j => decide (xpos + j < 64) && bitMsb (mem (idx + k)) j &&
              ((screen.getD (ypos + k) []).getD (xpos + j) false))) = false := by
          rw [List.any_eq_false]
          intro k hk
          rcases List.mem_cons.mp hk with hk1 | hk2
          · subst hk1
            simp [hnot]
          · have := hj k hk2
            have : ¬(ypos + k < 32) := by omega
            simp [this]
        rw [hany]
        simp
    · rw [if_neg h32] at h
      have hlt32 : ypos + i < 32 := by omega
      unfold readMem at h
      by_cases hm : idx + i < memSize
      · rw [if_pos hm] at h
        simp only [] at h
        have hrow0 : (screen.getD (ypos + i) []).length = 64 := hrows _ hlt32
        have hpcons := List.pairwise_lt_range 8
        have hclen := drawCols_length (mem (idx + i)) xpos (List.range 8)
          (screen.getD (ypos + i) []) flag
        have hsetlen : (screen.set (ypos + i)
            (drawCols (mem (idx + i)) xpos (List.range 8)
              (screen.getD (ypos + i) []) flag).1).length = 32 := by
          rw [List.length_set, hlen]
        have hsetrows : ∀ p, p < 32 →
            ((screen.set (ypos + i)
              (drawCols (mem (idx + i)) xpos (List.range 8)
                (screen.getD (ypos + i) []) flag).1).getD p []).length = 64 := by
          intro p hplt
          by_cases hpe : p = ypos + i
          · subst hpe
            rw [getD_set_self _ _ _ _ (by rw [hlen]; exact hlt32), hclen]
            exact hrow0
          · rw [getD_set_ne _ _ _ _ _ (by omega)]
            exact hrows p hplt
        obtain ⟨len1, rows1, pix1, flg1⟩ :=
          drawRows_spec mem idx xpos ypos rest _ _ screen1 flag1 hp2 hsetlen hsetrows h
        refine ⟨len1, rows1, ?_, ?_⟩
        · intro p q
          rw [pix1 p q]
          by_cases hpe : p = ypos + i
          · subst hpe
            rw [getD_set_self _ _ _ _ (by rw [hlen]; exact hlt32)]
            rw [drawCols_fst (mem (idx + i)) xpos (List.range 8)
              (screen.getD (ypos + i) []) flag hpcons (by rw [hrow0]) q]
            have hrest : (rest.any fun k =>
                decide (ypos + i = ypos + k) && decide (ypos + k < 32) &&
                ((List.range 8).any fun j =>
                  decide (q = xpos + j) && decide (xpos + j < 64) &&
                    bitMsb (mem (idx + k)) j)) = false := by
              rw [List.any_eq_false]
              intro k hk
              have := hj k hk
              have hne : ¬(ypos + i = ypos + k) := by omega
              simp [hne]
            rw [List.any_cons, hrest]
            have hhead : (decide (ypos + i = ypos + i) && decide (ypos + i < 32)) = true := by
              simp [hlt32]
            rw [Bool.or_false]
            rw [hhead]
            rw [Bool.true_and]
            rw [Bool.xor_assoc, Bool.xor_false]
          · rw [getD_set_ne _ _ _ _ _ (by omega)]
            rw [List.any_cons]
            have hhead : decide (p = ypos + i) = false := by simp [hpe]
            rw [hhead]
            simp
        · rw [flg1]
          have hcong : (rest.any fun k => decide (ypos + k < 32) &&
              ((List.range 8).any fun j => decide (xpos + j < 64) && bitMsb (mem (idx + k)) j &&
                (((screen.set (ypos + i)
                  (drawCols (mem (idx + i)) xpos (List.range 8)
                    (screen.getD (ypos + i) []) flag).1).getD (ypos + k) []).getD (xpos + j) false))) =
              (rest.any fun k => decide (ypos + k < 32) &&
              ((List.range 8).any fun j => decide (xpos + j < 64) && bitMsb (mem (idx + k)) j &&
                ((screen.getD (ypos + k) []).getD (xpos + j) false))) := by
            apply any_cong
            intro k hk
            have := hj k hk
            rw [getD_set_ne _ _ _ _ _ (by omega)]
          rw [hcong]
          rw [drawCols_snd (mem (idx + i)) xpos (List.range 8)
            (screen.getD (ypos + i) []) flag hpcons]
          rw [List.any_cons]
          have hhead : decide (ypos + i < 32) = true := by simp [hlt32]
          rw [hhead, Bool.true_and]
          cases hrf : (rest.any fun k => decide (ypos + k < 32) &&
              ((List.range 8).any fun j => decide (xpos + j < 64) && bitMsb (mem (idx + k)) j &&
                ((screen.getD (ypos + k) []).getD (xpos + j) false))) <;>
            cases hhf : ((List.range 8).any fun j => decide (xpos + j < 64) &&
              bitMsb (mem (idx + i)) j &&
                ((screen.getD (ypos + i) []).getD (xpos + j) false)) <;>
            simp
      · rw [if_neg hm] at h
        simp at h

/-- The screen pixel at row `p`, Msb0 bit position `q`. -/
def pixel (s : List (List Bool)) (p q : Nat) : Bool :=
  (s.getD p []).getD q false

/-- Specification-side predicate: the clipped sprite footprint hits absolute
screen position `(p, q)` with a set sprite bit. -/
def spriteHits (mem : Nat → Nat) (idx xpos ypos n : Nat) (p q : Nat) : Bool :=
  (List.range n).any fun i => decide (p = ypos + i) && decide (ypos + i < 32) &&
    ((List.range 8).any fun j =>
      decide (q = xpos + j) && decide (xpos + j < 64) && bitMsb (mem (idx + i)) j)

/-- Specification-side predicate: some set sprite bit of the clipped
footprint lands on an already-set pixel of `screen`. -/
def drawCollides (mem : Nat → Nat) (idx xpos ypos n : Nat)
    (screen : List (List Bool)) : Bool :=
  (List.range n).any fun i => decide (ypos + i < 32) &&
    ((List.range 8).any fun j => decide (xpos + j < 64) && bitMsb (mem (idx + i)) j &&
      ((screen.getD (ypos + i) []).getD (xpos + j) false))

/-- The state produced by a successful draw (screen and register file). -/
def drawOut (mem : Nat → Nat) (reg : List Nat) (idx x y n : Nat)
    (screen : List (List Bool)) : List (List Bool) × List Nat :=
  (execDxyn mem reg idx x y n screen).getD (screen, reg)

/-- Master specification of the draw opcode: the register file keeps all
registers except 0xF, which is zeroed and then set to the collision flag, and
every screen pixel is the XOR of its old value with the clipped sprite
footprint. -/
theorem execDxyn_spec (mem : Nat → Nat) (reg : List Nat) (idx x y n : Nat)
    (screen screen1 : List (List Bool)) (reg1 : List Nat)
    (hlen : screen.length = 32) (hrows : ∀ p, p < 32 → (screen.getD p []).length = 64)
    (h : execDxyn mem reg idx x y n screen = some (screen1, reg1)) :
    reg1 = reg.set 15
      (cond (drawCollides mem idx (reg.getD x 0 % 64) (reg.getD y 0 % 32) n screen) 1 0) ∧
    (∀ p q, pixel screen1 p q =
      xor (pixel screen p q)
        (spriteHits mem idx (reg.getD x 0 % 64) (reg.getD y 0 % 32) n p q)) ∧
    screen1.length = 32 ∧ (∀ p, p < 32 → (screen1.getD p []).length = 64) := by
  have hseed : ((reg.set 15 0).getD 15 0) = 0 := by
    by_cases h15 : 15 < reg.length
    · exact getD_set_self _ _ _ _ h15
    · rw [List.set_eq_of_length_le (by omega), List.getD_eq_default _ _ (by omega)]
  simp only [execDxyn] at h
  rcases hdr : drawRows mem idx (reg.getD x 0 % 64) (reg.getD y 0 % 32) (List.range n)
      screen ((reg.set 15 0).getD 15 0) with _ | p1
  · rw [hdr] at h
    exact Option.noConfusion h
  · obtain ⟨s1, fl⟩ := p1
    rw [hdr] at h
    simp only [Option.some.injEq, Prod.mk.injEq] at h
    obtain ⟨h1, h2⟩ := h
    subst h1
    subst h2
    obtain ⟨len1, rows1, pix1, flg1⟩ :=
      drawRows_spec mem idx (reg.getD x 0 % 64) (reg.getD y 0 % 32) (List.range n)
        screen _ s1 fl (List.pairwise_lt_range n) hlen hrows hdr
    rw [hseed] at flg1
    refine ⟨?_, ?_, len1, rows1⟩
    · rw [List.set_set, flg1]
      rfl
    · intro p q
      exact pix1 p q

/-- Claim C4: on every draw that completes, register 0xF is zeroed before the
scan and holds 1 afterwards iff at least one set sprite bit overlapped an
already-set screen pixel (each pixel is touched at most once per draw, so
"already set" is relative to the pre-draw screen); every pixel is the XOR of
its old value with the clipped footprint, hence pixels outside the footprint,
and pixels whose sprite bit is unset, are unchanged. -/
theorem c4_draw_collision (mem : Nat → Nat) (reg : List Nat) (idx x y n : Nat)
    (screen : List (List Bool)) (hreg : reg.length = 16)
    (hlen : screen.length = 32)
    (hrows : ∀ p, p < 32 → (screen.getD p []).length = 64)
    (hsome : (execDxyn mem reg idx x y n screen).isSome = true) :
    (drawOut mem reg idx x y n screen).2 =
      reg.set 15 (cond (drawCollides mem idx (reg.getD x 0 % 64) (reg.getD y 0 % 32) n screen) 1 0) ∧
    ((drawOut mem reg idx x y n screen).2.getD 15 0 = 1 ↔
      ∃ i, i < n ∧ reg.getD y 0 % 32 + i < 32 ∧ ∃ j, j < 8 ∧ reg.getD x 0 % 64 + j < 64 ∧
        bitMsb (mem (idx + i)) j = true ∧
        pixel screen (reg.getD y 0 % 32 + i) (reg.getD x 0 % 64 + j) = true) ∧
    (∀ p q, pixel (drawOut mem reg idx x y n screen).1 p q =
      xor (pixel screen p q)
        (spriteHits mem idx (reg.getD x 0 % 64) (reg.getD y 0 % 32) n p q)) ∧
    (∀ p q, spriteHits mem idx (reg.getD x 0 % 64) (reg.getD y 0 % 32) n p q = false →
      pixel (drawOut mem reg idx x y n screen).1 p q = pixel screen p q) := by
  obtain ⟨p1, heq⟩ := Option.isSome_iff_exists.mp hsome
  obtain ⟨s1, r1⟩ := p1
  obtain ⟨hr, hpix, _, _⟩ := execDxyn_spec mem reg idx x y n screen s1 r1 hlen hrows heq
  have hout : drawOut mem reg idx x y n screen = (s1, r1) := by
    unfold drawOut
    rw [heq]
    rfl
  rw [hout]
  have hcoll : drawCollides mem idx (reg.getD x 0 % 64) (reg.getD y 0 % 32) n screen = true ↔
      (∃ i, i < n ∧ reg.getD y 0 % 32 + i < 32 ∧ ∃ j, j < 8 ∧ reg.getD x 0 % 64 + j < 64 ∧
        bitMsb (mem (idx + i)) j = true ∧
        pixel screen (reg.getD y 0 % 32 + i) (reg.getD x 0 % 64 + j) = true) := by
    unfold drawCollides
    rw [List.any_eq_true]
    constructor
    · rintro ⟨i, hmem, hcond⟩
      rw [List.mem_range] at hmem
      rw [Bool.and_eq_true] at hcond
      obtain ⟨h1, h2⟩ := hcond
      rw [List.any_eq_true] at h2
      obtain ⟨j, hjmem, hjc⟩ := h2
      rw [List.mem_range] at hjmem
      rw [Bool.and_eq_true, Bool.and_eq_true] at hjc
      obtain ⟨⟨hj1, hj2⟩, hj3⟩ := hjc
      exact ⟨i, hmem, by simpa using h1, j, hjmem, by simpa using hj1, hj2, hj3⟩
    · rintro ⟨i, hin, h32, j, hj8, h64, hbit, hpixel⟩
      refine ⟨i, List.mem_range.mpr hin, ?_⟩
      rw [Bool.and_eq_true]
      refine ⟨by simpa using h32, ?_⟩
      rw [List.any_eq_true]
      refine ⟨j, List.mem_range.mpr hj8, ?_⟩
      rw [Bool.and_eq_true, Bool.and_eq_true]
      exact ⟨⟨by simpa using h64, hbit⟩, hpixel⟩
  refine ⟨hr, ?_, fun p q => hpix p q, ?_⟩
  · rw [hr, getD_set_self _ _ _ _ (by rw [hreg]; omega)]
    rw [← hcoll]
    cases drawCollides mem idx (reg.getD x 0 % 64) (reg.getD y 0 % 32) n screen <;> simp
  · intro p q hsh
    rw [hpix p q, hsh]
    simp

/-- Claim C5: a draw never writes outside the 64×32 grid, and every changed
pixel lies inside the clipped rectangle
`[ypos, min 32 (ypos+n)) × [xpos, min 64 (xpos+8))` — rows reaching 32 and
columns reaching 64 are dropped, never wrapped. -/
theorem c5_draw_clipping (mem : Nat → Nat) (reg : List Nat) (idx x y n : Nat)
    (screen : List (List Bool))
    (hlen : screen.length = 32)
    (hrows : ∀ p, p < 32 → (screen.getD p []).length = 64)
    (hsome : (execDxyn mem reg idx x y n screen).isSome = true) :
    (∀ p q, 32 ≤ p ∨ 64 ≤ q →
      pixel (drawOut mem reg idx x y n screen).1 p q = pixel screen p q) ∧
    (∀ p q, pixel (drawOut mem reg idx x y n screen).1 p q ≠ pixel screen p q →
      reg.getD y 0 % 32 ≤ p ∧ p < 32 ∧ p < reg.getD y 0 % 32 + n ∧
      reg.getD x 0 % 64 ≤ q ∧ q < 64 ∧ q < reg.getD x 0 % 64 + 8) ∧
    (∀ p q, pixel (drawOut mem reg idx x y n screen).1 p q =
      xor (pixel screen p q)
        (spriteHits mem idx (reg.getD x 0 % 64) (reg.getD y 0 % 32) n p q)) := by
  obtain ⟨p1, heq⟩ := Option.isSome_iff_exists.mp hsome
  obtain ⟨s1, r1⟩ := p1
  obtain ⟨_, hpix, _, _⟩ := execDxyn_spec mem reg idx x y n screen s1 r1 hlen hrows heq
  have hout : drawOut mem reg idx x y n screen = (s1, r1) := by
    unfold drawOut
    rw [heq]
    rfl
  rw [hout]
  have hhits : ∀ p q, spriteHits mem idx (reg.getD x 0 % 64) (reg.getD y 0 % 32) n p q = true →
      reg.getD y 0 % 32 ≤ p ∧ p < 32 ∧ p < reg.getD y 0 % 32 + n ∧
      reg.getD x 0 % 64 ≤ q ∧ q < 64 ∧ q < reg.getD x 0 % 64 + 8 := by
    intro p q hsh
    unfold spriteHits at hsh
    rw [List.any_eq_true] at hsh
    obtain ⟨i, hmem, hcond⟩ := hsh
    rw [List.mem_range] at hmem
    rw [Bool.and_eq_true, Bool.and_eq_true] at hcond
    obtain ⟨⟨h1, h2⟩, h3⟩ := hcond
    rw [List.any_eq_true] at h3
    obtain ⟨j, hjmem, hjc⟩ := h3
    rw [List.mem_range] at hjmem
    rw [Bool.and_eq_true, Bool.and_eq_true] at hjc
    obtain ⟨⟨hj1, hj2⟩, _⟩ := hjc
    rw [decide_eq_true_eq] at h1 h2 hj1 hj2
    omega
  refine ⟨?_, ?_, fun p q => hpix p q⟩
  · intro p q hcase
    rw [hpix p q]
    have : spriteHits mem idx (reg.getD x 0 % 64) (reg.getD y 0 % 32) n p q = false := by
      cases hsh : spriteHits mem idx (reg.getD x 0 % 64) (reg.getD y 0 % 32) n p q
      · rfl
      · have := hhits p q hsh
        omega
    rw [this]
    simp
  · intro p q hne
    rw [hpix p q] at hne
    apply hhits p q
    cases hsh : spriteHits mem idx (reg.getD x 0 % 64) (reg.getD y 0 % 32) n p q
    · rw [hsh] at hne
      simp at hne
    · rfl

/-- A memory whose every byte is 0xFF (a full 8-pixel sprite row). -/
def memAllFF : Nat → Nat := fun _ => 0xFF

/-- Registers `Reg[0] = 60`, `Reg[1] = 0`: draw origin (60, 0). -/
def regDraw : List Nat := ((List.replicate 16 0).set 0 60).set 1 0

/-- The all-clear screen. -/
def screenEmpty : List (List Bool) := List.replicate 32 (List.replicate 64 false)

/-- A screen whose only set pixel is (0, 60). -/
def screenDot : List (List Bool) :=
  (List.replicate 32 (List.replicate 64 false)).set 0 ((List.replicate 64 false).set 60 true)

/-- Witness for `c4_draw_collision`: the sprite `0xFF` drawn at (60, 0) on a
screen whose pixel (0, 60) is set. -/
theorem c4_draw_collision_witness :
    (drawOut memAllFF regDraw 0 0 1 1 screenDot).2 =
      regDraw.set 15 (cond (drawCollides memAllFF 0 (regDraw.getD 0 0 % 64)
        (regDraw.getD 1 0 % 32) 1 screenDot) 1 0) ∧
    ((drawOut memAllFF regDraw 0 0 1 1 screenDot).2.getD 15 0 = 1 ↔
      ∃ i, i < 1 ∧ regDraw.getD 1 0 % 32 + i < 32 ∧ ∃ j, j < 8 ∧
        regDraw.getD 0 0 % 64 + j < 64 ∧
        bitMsb (memAllFF (0 + i)) j = true ∧
        pixel screenDot (regDraw.getD 1 0 % 32 + i) (regDraw.getD 0 0 % 64 + j) = true) ∧
    (∀ p q, pixel (drawOut memAllFF regDraw 0 0 1 1 screenDot).1 p q =
      xor (pixel screenDot p q)
        (spriteHits memAllFF 0 (regDraw.getD 0 0 % 64) (regDraw.getD 1 0 % 32) 1 p q)) ∧
    (∀ p q, spriteHits memAllFF 0 (regDraw.getD 0 0 % 64) (regDraw.getD 1 0 % 32) 1 p q = false →
      pixel (drawOut memAllFF regDraw 0 0 1 1 screenDot).1 p q = pixel screenDot p q) :=
  c4_draw_collision memAllFF regDraw 0 0 1 1 screenDot
    (by decide) (by decide) (by decide) (by decide)

/-- Witness for `c5_draw_clipping`: scenario C of the specification — the
one-byte sprite `0xFF` drawn at origin (60, 0) on an empty screen succeeds,
sets exactly columns 60–63 of row 0 (column 59 and row 1 stay clear), drops
the clipped columns, and reports no collision. -/
theorem c5_draw_clipping_witness :
    ((∀ p q, 32 ≤ p ∨ 64 ≤ q →
      pixel (drawOut memAllFF regDraw 0 0 1 1 screenEmpty).1 p q = pixel screenEmpty p q) ∧
    (∀ p q, pixel (drawOut memAllFF regDraw 0 0 1 1 screenEmpty).1 p q ≠ pixel screenEmpty p q →
      regDraw.getD 1 0 % 32 ≤ p ∧ p < 32 ∧ p < regDraw.getD 1 0 % 32 + 1 ∧
      regDraw.getD 0 0 % 64 ≤ q ∧ q < 64 ∧ q < regDraw.getD 0 0 % 64 + 8) ∧
    (∀ p q, pixel (drawOut memAllFF regDraw 0 0 1 1 screenEmpty).1 p q =
      xor (pixel screenEmpty p q)
        (spriteHits memAllFF 0 (regDraw.getD 0 0 % 64) (regDraw.getD 1 0 % 32) 1 p q))) ∧
    ((execDxyn memAllFF regDraw 0 0 1 1 screenEmpty).isSome = true ∧
     pixel (drawOut memAllFF regDraw 0 0 1 1 screenEmpty).1 0 59 = false ∧
     pixel (drawOut memAllFF regDraw 0 0 1 1 screenEmpty).1 0 60 = true ∧
     pixel (drawOut memAllFF regDraw 0 0 1 1 screenEmpty).1 0 61 = true ∧
     pixel (drawOut memAllFF regDraw 0 0 1 1 screenEmpty).1 0 62 = true ∧
     pixel (drawOut memAllFF regDraw 0 0 1 1 screenEmpty).1 0 63 = true ∧
     pixel (drawOut memAllFF regDraw 0 0 1 1 screenEmpty).1 1 60 = false ∧
     (drawOut memAllFF regDraw 0 0 1 1 screenEmpty).2.getD 15 0 = 0) :=
  ⟨c5_draw_clipping memAllFF regDraw 0 0 1 1 screenEmpty
      (by decide) (by decide) (by decide),
   by decide⟩
